import Mathlib

/-!
Shallow embedding of the load-number segmentation-and-flagging pipeline of
`Flag_LoadNumbers.ipynb` (repository DQM_Sensors).

Timestamps are modelled as integers (seconds); durations as integers;
the averaged delta as a rational (pandas computes a mean).  A pandas
null (`NaN`/`NaT`) is modelled as `none` of an `Option`.  The pipeline
stages follow the notebook cells:

* `to_datetime`          — cell 5, `pd.to_datetime` (default `errors` raises);
* `diffDeltas` / `nullLargeDeltas` — cell 6, per-contract `diff` and the
  `> contract_gap_threshold → NA` masking;
* `calculate_group_number` — cell 7, `ne(shift()).cumsum()` per contract;
* `contractIntervals`    — cell 9, the `groupby(['contract_id','group_number'])`
  aggregation (keys enumerated in sorted order, as pandas does);
* the flag columns of cells 13–25, including the fact that
  `flag_duplicated_load_numbers` writes its mask into a column named
  `invalid_duplicate_loads` while the column `invalid_load_duplicate`
  (initialised to 0 and listed in `outlier_columns`) is never written;
* `asofLookup` / `backfill` — cell 27, `pd.merge_asof(..., on='msg_time')`
  (backward nearest match on the interval's `msg_time_min`, with no
  `by='contract_id'`), and cell 28's drop of `group_number`/`time_delta`.

The `groupby('contract_id').apply` steps of the notebook concatenate the
per-contract results in sorted contract order; this file models them as
a `bind` of a per-contract function over the sorted, deduplicated list
of contract ids, which yields the same rows.
-/

/-- One input telemetry record after timestamp parsing.  `payload` stands
for the passthrough columns that the core never inspects. -/
structure Record where
  contract_id : Int
  msg_time : Int
  load_number : Option Int
  payload : Int
deriving DecidableEq, Repr

/-- A record annotated with the two working columns added in place:
`time_delta` (cell 6) and `group_number` (cell 7). -/
structure ARecord where
  contract_id : Int
  msg_time : Int
  load_number : Option Int
  payload : Int
  time_delta : Option Int
  group_number : Nat
deriving DecidableEq, Repr

/-- `groupby('contract_id')['msg_time'].diff()` restricted to one contract's
records in time order: difference to the previous record, `none` for the
first. -/
def diffDeltas : Option Int → List Record → List (Option Int)
  | _, [] => []
  | prev, r :: rs => (prev.map (fun t => r.msg_time - t)) :: diffDeltas (some r.msg_time) rs

/-- `orig_df.loc[orig_df['time_delta'] > contract_gap_threshold] = pd.NA`:
deltas strictly above the gap ceiling are nulled (a null stays null, since
`NaT > threshold` is false). -/
def nullLargeDeltas (gap : Int) (ds : List (Option Int)) : List (Option Int) :=
  ds.map (fun d => d.bind (fun x => if gap < x then none else some x))

/-- Does the current label differ from the previous one, with pandas `ne`
semantics: a null on either side (including the missing predecessor of the
first row) compares as different, even null-vs-null. -/
def labelDiffers : Option (Option Int) → Option Int → Bool
  | some (some a), some b => a != b
  | _, _ => true

/-- The running state of `ne(shift()).cumsum()`: `prev` is the previous
row's label (`none` before the first row), `acc` the cumulative sum so
far. -/
def groupGo (prev : Option (Option Int)) (acc : Nat) : List (Option Int) → List Nat
  | [] => []
  | l :: ls =>
    let g := if labelDiffers prev l then acc + 1 else acc
    g :: groupGo (some l) g ls

/-- Cell 7's `calculate_group_number` applied to one contract's labels in
time order: `group['load_number'].ne(group['load_number'].shift()).cumsum()`. -/
def calculate_group_number (loads : List (Option Int)) : List Nat :=
  groupGo none 0 loads

/-- Attach the two working columns positionally. -/
def zipRecs : List Record → List (Option Int) → List Nat → List ARecord
  | r :: rs, d :: ds, g :: gs =>
      { contract_id := r.contract_id, msg_time := r.msg_time,
        load_number := r.load_number, payload := r.payload,
        time_delta := d, group_number := g } :: zipRecs rs ds gs
  | _, _, _ => []

/-- Cells 6–7 for one contract's records (in time order): compute deltas,
null the large ones, assign group numbers. -/
def annotateContract (gap : Int) (crs : List Record) : List ARecord :=
  zipRecs crs (nullLargeDeltas gap (diffDeltas none crs))
    (calculate_group_number (crs.map (fun r => r.load_number)))

/-- The group keys of one contract, enumerated the way
`groupby(['contract_id','group_number'])` enumerates them: sorted,
without repetition. -/
def groupKeys (anns : List ARecord) : List Nat :=
  (List.insertionSort (· ≤ ·) (anns.map (fun a => a.group_number))).dedup

/-- Minimum of a list of integers (0 for the empty list, which the
pipeline never produces: every group has at least one member). -/
def listMinI : List Int → Int
  | [] => 0
  | x :: xs => xs.foldl min x

/-- Maximum of a list of integers (0 for the empty list). -/
def listMaxI : List Int → Int
  | [] => 0
  | x :: xs => xs.foldl max x

/-- `df['load_number'].min()`: pandas `min` skips nulls and returns null
when every value is null. -/
def optMinI (l : List (Option Int)) : Option Int :=
  match l.filterMap id with
  | [] => none
  | x :: xs => some (listMinI (x :: xs))

/-- `df['time_delta'].mean()`: mean of the non-null deltas, null when all
are null. -/
def meanQ (l : List (Option Int)) : Option ℚ :=
  match l.filterMap id with
  | [] => none
  | x :: xs => some (((x :: xs).map (fun v => (v : ℚ))).sum / ((x :: xs).length : ℚ))

/-- One row of the `group_intervals` frame built in cell 9. -/
structure LoadInterval where
  contract : Int
  group : Nat
  load : Option Int
  msg_time_min : Int
  msg_time_max : Int
  time_delta_avg : Option ℚ
  total_points : Nat
deriving DecidableEq, Repr

/-- Cell 11's `total_time` column: the length of the closed interval
`[msg_time_min, msg_time_max]`. -/
def total_time (iv : LoadInterval) : Int :=
  iv.msg_time_max - iv.msg_time_min

/-- Cell 11's `msg_time_mid` column (computed by the notebook but unused
by every flag). -/
def msg_time_mid (iv : LoadInterval) : ℚ :=
  (iv.msg_time_min : ℚ) + (total_time iv : ℚ) / 2

/-- The aggregation of cell 9 for one `(contract, group)` key. -/
def mkInterval (c : Int) (g : Nat) (members : List ARecord) : LoadInterval :=
  { contract := c, group := g,
    load := optMinI (members.map (fun a => a.load_number)),
    msg_time_min := listMinI (members.map (fun a => a.msg_time)),
    msg_time_max := listMaxI (members.map (fun a => a.msg_time)),
    time_delta_avg := meanQ (members.map (fun a => a.time_delta)),
    total_points := members.length }

/-- Cell 9 for one contract: group the annotated records by group number
and reduce each group to one `LoadInterval` row. -/
def contractIntervals (gap : Int) (c : Int) (crs : List Record) : List LoadInterval :=
  (groupKeys (annotateContract gap crs)).map
    (fun g => mkInterval c g ((annotateContract gap crs).filter (fun a => a.group_number = g)))

/-- The tunable parameters of cell 2 (durations in integer seconds, the
ping-rate tolerance as a rational number of seconds). -/
structure Config where
  contract_gap_threshold : Int
  load_gap_threshold : Int
  duration_threshold_min : Int
  duration_threshold_max : Int
  point_threshold_min : Nat
  point_threshold_max : Nat
  ping_rate_threshold : ℚ
deriving DecidableEq, Repr

/-- Cell 13: `np.where(total_time < duration_threshold_min, 1, 0)`. -/
def invalid_load_duration_short (cfg : Config) (iv : LoadInterval) : Nat :=
  if total_time iv < cfg.duration_threshold_min then 1 else 0

/-- Cell 13: `np.where(total_time > duration_threshold_max, 1, 0)`. -/
def invalid_load_duration_long (cfg : Config) (iv : LoadInterval) : Nat :=
  if cfg.duration_threshold_max < total_time iv then 1 else 0

/-- Cell 16: `np.where(total_points < point_threshold_min, 1, 0)`. -/
def invalid_load_point_count_low (cfg : Config) (iv : LoadInterval) : Nat :=
  if iv.total_points < cfg.point_threshold_min then 1 else 0

/-- Cell 16: `np.where(total_points > point_threshold_max, 1, 0)`. -/
def invalid_load_point_count_high (cfg : Config) (iv : LoadInterval) : Nat :=
  if cfg.point_threshold_max < iv.total_points then 1 else 0

/-- Cell 19: `np.where(time_delta_avg > load_gap_threshold, 1, 0)`; a null
average never satisfies the comparison, so the row gets 0. -/
def invalid_load_reporting_gap (cfg : Config) (iv : LoadInterval) : Nat :=
  match iv.time_delta_avg with
  | none => 0
  | some a => if (cfg.load_gap_threshold : ℚ) < a then 1 else 0

/-- Cell 20's `flag_invalid_ping_rates`: compare the estimated ping rate
`total_time / total_points` with the observed average delta.  When the
average is null, `NaT.total_seconds()` is `nan` and `abs(est - nan) >
threshold` is false, so the row gets 0. -/
def flag_invalid_ping_rates (cfg : Config) (iv : LoadInterval) : Nat :=
  match iv.time_delta_avg with
  | none => 0
  | some tds =>
      if cfg.ping_rate_threshold < |(total_time iv : ℚ) / (iv.total_points : ℚ) - tds| then 1 else 0

/-- Closed-interval intersection, as pandas `Interval.overlaps` computes it
for intervals built with `closed='both'`: a shared endpoint counts. -/
def ivOverlaps (a b : LoadInterval) : Bool :=
  decide (a.msg_time_min ≤ b.msg_time_max) && decide (b.msg_time_min ≤ a.msg_time_max)

/-- Cell 22's `check_overlaps` for one contract: row `i` gets 1 exactly
when some row `j` with a different index overlaps it (the double loop
visits both orders, so the flag is symmetric). -/
def overlapFlags (ivs : List LoadInterval) : List Nat :=
  ivs.enum.map (fun p => if ivs.enum.any (fun q => p.1 != q.1 && ivOverlaps p.2 q.2) then 1 else 0)

/-- Cell 23 for one contract, on rows sorted by interval:
`abs(msg_time_min - msg_time_max.shift(1)) > load_gap_threshold`; the
first row of the contract has a null shift, and a null difference never
exceeds the threshold, so it gets 0. -/
def noncontigScan (thr : Int) : Option Int → List LoadInterval → List Nat
  | _, [] => []
  | prevMax, iv :: ivs =>
    (match prevMax with
     | none => 0
     | some m => if thr < |iv.msg_time_min - m| then 1 else 0)
      :: noncontigScan thr (some iv.msg_time_max) ivs

/-- The order `sort_values(['contract','interval'])` induces inside one
contract: by `msg_time_min`, then by `msg_time_max` (pandas orders
`LoadInterval` values lexicographically by `(left, right)`). -/
def ivLe (a b : LoadInterval) : Prop :=
  a.msg_time_min < b.msg_time_min ∨
    (a.msg_time_min = b.msg_time_min ∧ a.msg_time_max ≤ b.msg_time_max)

instance (a b : LoadInterval) : Decidable (ivLe a b) :=
  inferInstanceAs (Decidable (_ ∨ _ ∧ _))

instance : IsTotal LoadInterval ivLe :=
  ⟨fun a b => by unfold ivLe; omega⟩

instance : IsTrans LoadInterval ivLe :=
  ⟨fun a b c hab hbc => by unfold ivLe at hab hbc ⊢; omega⟩

/-- Cell 21/24's `flag_duplicated_load_numbers` mask for one row:
`df['load'].duplicated(keep=False)` is true exactly when the row's load
value (nulls comparing equal to nulls) occurs in at least two rows of the
contract's frame.  The source function assigns 1 under this mask to a
column named `invalid_duplicate_loads` — not to `invalid_load_duplicate` —
so the masked rows get `some 1` here and every other row keeps the
missing value `none`. -/
def flag_duplicated_load_numbers (loads : List (Option Int)) (x : Option Int) : Option Nat :=
  if 2 ≤ (loads.filter (fun v => v = x)).length then some 1 else none

/-- One row of the fully flagged `group_intervals` frame (cells 13–25).
`invalid_load_duplicate` is the column initialised to 0 in cells 21/24 and
listed in `outlier_columns`; `invalid_duplicate_loads` is the column the
duplicate mask is actually written to. -/
structure FIv where
  contract : Int
  group : Nat
  load : Option Int
  msg_time_min : Int
  msg_time_max : Int
  time_delta_avg : Option ℚ
  total_points : Nat
  invalid_load_duration_short : Nat
  invalid_load_duration_long : Nat
  invalid_load_point_count_low : Nat
  invalid_load_point_count_high : Nat
  invalid_load_reporting_gap : Nat
  invalid_load_ping_rate : Nat
  invalid_load_overlap : Nat
  invalid_load_noncontiguous : Nat
  invalid_load_duplicate : Nat
  invalid_duplicate_loads : Option Nat
  invalid_load : Nat
deriving DecidableEq, Repr

/-- Assemble one flagged row.  `loads` is the contract's `load` column,
`ov` and `nc` the row's overlap and noncontiguity flags.  Cell 25's
`invalid_load` is the truthiness-`any` over the nine `outlier_columns`
(which include the never-written `invalid_load_duplicate`, kept at 0). -/
def mkFIv (cfg : Config) (loads : List (Option Int)) (ov nc : Nat) (iv : LoadInterval) : FIv :=
  let fShort := invalid_load_duration_short cfg iv
  let fLong := invalid_load_duration_long cfg iv
  let fLow := invalid_load_point_count_low cfg iv
  let fHigh := invalid_load_point_count_high cfg iv
  let fGap := invalid_load_reporting_gap cfg iv
  let fPing := flag_invalid_ping_rates cfg iv
  let fDup : Nat := 0
  { contract := iv.contract, group := iv.group, load := iv.load,
    msg_time_min := iv.msg_time_min, msg_time_max := iv.msg_time_max,
    time_delta_avg := iv.time_delta_avg, total_points := iv.total_points,
    invalid_load_duration_short := fShort,
    invalid_load_duration_long := fLong,
    invalid_load_point_count_low := fLow,
    invalid_load_point_count_high := fHigh,
    invalid_load_reporting_gap := fGap,
    invalid_load_ping_rate := fPing,
    invalid_load_overlap := ov,
    invalid_load_noncontiguous := nc,
    invalid_load_duplicate := fDup,
    invalid_duplicate_loads := flag_duplicated_load_numbers loads iv.load,
    invalid_load :=
      if fShort ≠ 0 ∨ fLong ≠ 0 ∨ fLow ≠ 0 ∨ fHigh ≠ 0 ∨ fGap ≠ 0 ∨ fPing ≠ 0 ∨
          ov ≠ 0 ∨ nc ≠ 0 ∨ fDup ≠ 0 then 1 else 0 }

/-- Zip the positional flag columns onto the interval rows. -/
def attachFlags (cfg : Config) (loads : List (Option Int)) :
    List Nat → List Nat → List LoadInterval → List FIv
  | o :: os, n :: ns, iv :: ivs =>
      mkFIv cfg loads o n iv :: attachFlags cfg loads os ns ivs
  | _, _, _ => []

/-- Cell 23's `sort_values(['contract','interval'])` restricted to one
contract: the interval rows in `(msg_time_min, msg_time_max)` order. -/
def sortedIntervals (cfg : Config) (c : Int) (crs : List Record) : List LoadInterval :=
  List.insertionSort ivLe (contractIntervals cfg.contract_gap_threshold c crs)

/-- Cells 9–25 for one contract's records (in time order): build the
intervals, sort them by interval as cell 23 does, and attach every flag
column.  The duplicate and overlap flags of a row depend only on the
whole contract frame, not on row order, so computing them after the sort
yields the same rows the notebook produces. -/
def flagContract (cfg : Config) (c : Int) (crs : List Record) : List FIv :=
  attachFlags cfg ((sortedIntervals cfg c crs).map (fun iv => iv.load))
    (overlapFlags (sortedIntervals cfg c crs))
    (noncontigScan cfg.load_gap_threshold none (sortedIntervals cfg c crs))
    (sortedIntervals cfg c crs)

/-- The distinct contract ids in sorted order (the order in which every
`groupby('contract_id')` of the notebook emits its groups). -/
def contractsOf (rs : List Record) : List Int :=
  (List.insertionSort (· ≤ ·) (rs.map (fun r => r.contract_id))).dedup

/-- The full flagged interval frame: each contract's flagged rows, contract
blocks in sorted contract order. -/
def allFlagged (cfg : Config) (rs : List Record) : List FIv :=
  (contractsOf rs).flatMap (fun c => flagContract cfg c (rs.filter (fun r => r.contract_id = c)))

/-- Sort key of cell 27's `group_intervals.sort_values('msg_time')`, where
`msg_time` was set to `msg_time_min`. -/
def fivLe (a b : FIv) : Prop :=
  a.msg_time_min ≤ b.msg_time_min

instance (a b : FIv) : Decidable (fivLe a b) :=
  inferInstanceAs (Decidable (_ ≤ _))

/-- Sort key of `orig_df.sort_values('msg_time')`. -/
def recLe (a b : Record) : Prop :=
  a.msg_time ≤ b.msg_time

instance (a b : Record) : Decidable (recLe a b) :=
  inferInstanceAs (Decidable (_ ≤ _))

/-- `pd.merge_asof(..., on='msg_time')` match for one left row: the last
right row (in sorted key order) whose key `msg_time_min` is at most the
record's `msg_time`; `none` when no key qualifies.  There is no
`by='contract_id'` restriction in the call. -/
def asofLookup (fivs : List FIv) (t : Int) : Option FIv :=
  fivs.foldl (fun acc fi => if fi.msg_time_min ≤ t then some fi else acc) none

/-- The ten columns cell 27 merges onto the record set. -/
structure Flags where
  invalid_load_duration_short : Nat
  invalid_load_duration_long : Nat
  invalid_load_point_count_low : Nat
  invalid_load_point_count_high : Nat
  invalid_load_reporting_gap : Nat
  invalid_load_ping_rate : Nat
  invalid_load_overlap : Nat
  invalid_load_noncontiguous : Nat
  invalid_load_duplicate : Nat
  invalid_load : Nat
deriving DecidableEq, Repr

/-- Project the ten merged columns out of a flagged interval row. -/
def flagsOf (fi : FIv) : Flags :=
  { invalid_load_duration_short := fi.invalid_load_duration_short,
    invalid_load_duration_long := fi.invalid_load_duration_long,
    invalid_load_point_count_low := fi.invalid_load_point_count_low,
    invalid_load_point_count_high := fi.invalid_load_point_count_high,
    invalid_load_reporting_gap := fi.invalid_load_reporting_gap,
    invalid_load_ping_rate := fi.invalid_load_ping_rate,
    invalid_load_overlap := fi.invalid_load_overlap,
    invalid_load_noncontiguous := fi.invalid_load_noncontiguous,
    invalid_load_duplicate := fi.invalid_load_duplicate,
    invalid_load := fi.invalid_load }

/-- One output row: the record's own fields plus the ten merged columns
(`none` models the all-NaN flag row of a record no interval key precedes).
The working columns `group_number` and `time_delta` are dropped by cell 28
and therefore absent here. -/
structure OutRecord where
  contract_id : Int
  msg_time : Int
  load_number : Option Int
  payload : Int
  flags : Option Flags
deriving DecidableEq, Repr

/-- Cells 27–28: sort both sides by the key, match each record backward to
the nearest interval key, attach the ten columns, drop the working
columns. -/
def backfill (cfg : Config) (rs : List Record) : List OutRecord :=
  let sortedRecs := List.insertionSort recLe rs
  let gis := List.insertionSort fivLe (allFlagged cfg rs)
  sortedRecs.map (fun r =>
    { contract_id := r.contract_id, msg_time := r.msg_time,
      load_number := r.load_number, payload := r.payload,
      flags := (asofLookup gis r.msg_time).map flagsOf })

/-- The whole post-parse pipeline: the cell-5 global time sort followed by
annotation, interval flagging and the backfill merge. -/
def processRecords (cfg : Config) (rs0 : List Record) : List OutRecord :=
  backfill cfg (List.insertionSort recLe rs0)

/-- Recover the record fields of an output row (the inverse image of the
ten appended columns). -/
def stripFlags (o : OutRecord) : Record :=
  { contract_id := o.contract_id, msg_time := o.msg_time,
    load_number := o.load_number, payload := o.payload }

/-- A raw input row before cell 5: `msg_time_text` is the outcome of
attempting to parse its timestamp string (`none` = unparseable). -/
structure RawRecord where
  contract_id : Int
  msg_time_text : Option Int
  load_number : Option Int
  payload : Int
deriving DecidableEq, Repr

/-- The error `pd.to_datetime` raises (default `errors` mode) on the first
unparseable timestamp. -/
inductive ParseError where
  | unparseable
deriving DecidableEq, Repr

/-- Cell 5's `pd.to_datetime(orig_df['msg_time'])`: parse every row's
timestamp; with the default `errors` mode a single unparseable value
raises, aborting the whole run. -/
def to_datetime : List RawRecord → Except ParseError (List Record)
  | [] => .ok []
  | r :: rs =>
    match r.msg_time_text with
    | none => .error .unparseable
    | some t =>
      match to_datetime rs with
      | .error e => .error e
      | .ok tail =>
          .ok ({ contract_id := r.contract_id, msg_time := t,
                 load_number := r.load_number, payload := r.payload } :: tail)

/-- The run as a whole, from raw rows to the output frame: parsing first,
then the record pipeline.  A parse failure yields no output at all. -/
def runPipeline (cfg : Config) (raws : List RawRecord) : Except ParseError (List OutRecord) :=
  match to_datetime raws with
  | .error e => .error e
  | .ok rs => .ok (processRecords cfg rs)

/-- Adjacent-pair check that a record list is in ascending `msg_time`
order (the state every per-contract list is in after cell 5's sort). -/
def sortedByTime : List Record → Bool
  | [] => true
  | [_] => true
  | a :: b :: rs => decide (a.msg_time ≤ b.msg_time) && sortedByTime (b :: rs)

/-! ## Concrete inputs used to exercise the pipeline -/

/-- Thresholds for the duplicate-label scenario: every rule is configured
not to fire (deltas are all nulled by the negative gap ceiling, durations
and point counts are within bounds, intervals neither overlap nor sit far
apart). -/
def cfgC1 : Config :=
  { contract_gap_threshold := -1, load_gap_threshold := 100,
    duration_threshold_min := 0, duration_threshold_max := 1000,
    point_threshold_min := 0, point_threshold_max := 100,
    ping_rate_threshold := 1 }

/-- Contract 1 reports load 1, then load 2, then load 1 again: three
groups whose loads are 1, 2, 1 — the two intervals labelled 1 are
duplicates within the contract. -/
def crsC1 : List Record :=
  [{ contract_id := 1, msg_time := 0, load_number := some 1, payload := 10 },
   { contract_id := 1, msg_time := 10, load_number := some 2, payload := 11 },
   { contract_id := 1, msg_time := 20, load_number := some 1, payload := 12 }]

/-- Thresholds for the backfill scenario: `point_threshold_min = 2`, so a
one-record interval is flagged `invalid_load_point_count_low` and a
two-record interval is not. -/
def cfgC2 : Config :=
  { contract_gap_threshold := -1, load_gap_threshold := 100,
    duration_threshold_min := 0, duration_threshold_max := 1000,
    point_threshold_min := 2, point_threshold_max := 100,
    ping_rate_threshold := 1 }

/-- Two interleaved contracts: contract 1 has one interval `[0, 10]`
(two records), contract 2 one interval `[5, 5]` (one record).  The
interval keys in time order are 0 (contract 1) and 5 (contract 2). -/
def rsC2 : List Record :=
  [{ contract_id := 1, msg_time := 0, load_number := some 1, payload := 100 },
   { contract_id := 2, msg_time := 5, load_number := some 7, payload := 200 },
   { contract_id := 1, msg_time := 10, load_number := some 1, payload := 101 }]

/-- Two contracts; contract 1 has a repeated label, then a null label. -/
def rsC3 : List Record :=
  [{ contract_id := 1, msg_time := 0, load_number := some 4, payload := 0 },
   { contract_id := 1, msg_time := 10, load_number := some 4, payload := 1 },
   { contract_id := 1, msg_time := 20, load_number := none, payload := 2 },
   { contract_id := 2, msg_time := 5, load_number := some 9, payload := 3 }]

/-- Two contracts; contract 1 has two groups (loads 1, 1, then 2). -/
def rsC4 : List Record :=
  [{ contract_id := 1, msg_time := 0, load_number := some 1, payload := 0 },
   { contract_id := 1, msg_time := 7, load_number := some 1, payload := 1 },
   { contract_id := 1, msg_time := 9, load_number := some 2, payload := 2 },
   { contract_id := 2, msg_time := 3, load_number := some 1, payload := 3 }]

/-- Any configuration works for the null-average scenario. -/
def cfgC6 : Config :=
  { contract_gap_threshold := 10, load_gap_threshold := 20,
    duration_threshold_min := 0, duration_threshold_max := 1000,
    point_threshold_min := 0, point_threshold_max := 100,
    ping_rate_threshold := 1 }

/-- A single-record contract: the record has no predecessor, so its delta
and hence the interval's average delta are null. -/
def crsC6 : List Record :=
  [{ contract_id := 1, msg_time := 0, load_number := some 3, payload := 0 }]

/-- `load_gap_threshold = 3`: the 10-second gap between the two intervals
below exceeds it. -/
def cfgC7 : Config :=
  { contract_gap_threshold := -1, load_gap_threshold := 3,
    duration_threshold_min := 0, duration_threshold_max := 1000,
    point_threshold_min := 0, point_threshold_max := 100,
    ping_rate_threshold := 1 }

/-- One contract, two one-record groups 10 seconds apart. -/
def crsC7 : List Record :=
  [{ contract_id := 1, msg_time := 0, load_number := some 1, payload := 0 },
   { contract_id := 1, msg_time := 10, load_number := some 2, payload := 1 }]

/-- Any configuration works for the parse-failure scenario. -/
def cfgC8 : Config :=
  { contract_gap_threshold := 10, load_gap_threshold := 20,
    duration_threshold_min := 0, duration_threshold_max := 1000,
    point_threshold_min := 0, point_threshold_max := 100,
    ping_rate_threshold := 1 }

/-- Three raw rows; the middle row's timestamp does not parse. -/
def rawsC8 : List RawRecord :=
  [{ contract_id := 1, msg_time_text := some 0, load_number := some 1, payload := 0 },
   { contract_id := 1, msg_time_text := none, load_number := some 2, payload := 1 },
   { contract_id := 1, msg_time_text := some 10, load_number := some 3, payload := 2 }]

/-- `point_threshold_min = 5`: the single-record interval below is flagged
for a low point count, which must condemn it. -/
def cfgC9 : Config :=
  { contract_gap_threshold := -1, load_gap_threshold := 100,
    duration_threshold_min := 0, duration_threshold_max := 1000,
    point_threshold_min := 5, point_threshold_max := 100,
    ping_rate_threshold := 1 }

/-- A single-record contract. -/
def crsC9 : List Record :=
  [{ contract_id := 1, msg_time := 0, load_number := some 1, payload := 0 }]

/-- Loose thresholds for the timestamp-tie scenario. -/
def cfgC10 : Config :=
  { contract_gap_threshold := -1, load_gap_threshold := 100,
    duration_threshold_min := 0, duration_threshold_max := 1000,
    point_threshold_min := 0, point_threshold_max := 100,
    ping_rate_threshold := 1 }

/-- The label changes from 1 to 2 between two records that carry the same
timestamp 5: the first group's interval is `[0, 5]`, the second's is
`[5, 5]`. -/
def crsC10 : List Record :=
  [{ contract_id := 1, msg_time := 0, load_number := some 1, payload := 0 },
   { contract_id := 1, msg_time := 5, load_number := some 1, payload := 1 },
   { contract_id := 1, msg_time := 5, load_number := some 2, payload := 2 }]

/-! ## Helper lemmas: fold-based minima and maxima -/

lemma le_foldl_max (xs : List Int) (a : Int) : a ≤ xs.foldl max a := by
  induction xs generalizing a with
  | nil => exact le_refl a
  | cons x xs ih => exact le_trans (le_max_left a x) (ih (max a x))

lemma foldl_max_le_of_mem (xs : List Int) (a x : Int) (hx : x ∈ xs) : x ≤ xs.foldl max a := by
  induction xs generalizing a with
  | nil => cases hx
  | cons y ys ih =>
    rcases List.mem_cons.mp hx with h | h
    · subst h
      exact le_trans (le_max_right a x) (le_foldl_max ys (max a x))
    · exact ih (max a y) h

lemma foldl_max_mem_cons (xs : List Int) (a : Int) : xs.foldl max a ∈ a :: xs := by
  induction xs generalizing a with
  | nil => exact List.mem_singleton.mpr rfl
  | cons y ys ih =>
    have h := ih (max a y)
    rcases List.mem_cons.mp h with h1 | h1
    · rcases max_choice a y with h2 | h2
      · exact List.mem_cons.mpr (Or.inl (by rw [List.foldl_cons, h1, h2]))
      · refine List.mem_cons.mpr (Or.inr ?_)
        exact List.mem_cons.mpr (Or.inl (by rw [List.foldl_cons, h1, h2]))
    · exact List.mem_cons.mpr (Or.inr (List.mem_cons.mpr (Or.inr h1)))

lemma listMaxI_ge (l : List Int) (x : Int) (hx : x ∈ l) : x ≤ listMaxI l := by
  cases l with
  | nil => cases hx
  | cons y ys =>
    rcases List.mem_cons.mp hx with h | h
    · subst h; exact le_foldl_max ys x
    · exact foldl_max_le_of_mem ys y x h

lemma listMaxI_mem (l : List Int) (hl : l ≠ []) : listMaxI l ∈ l := by
  cases l with
  | nil => exact absurd rfl hl
  | cons y ys => exact foldl_max_mem_cons ys y

lemma listMaxI_eq_of (l : List Int) (v : Int) (hv : v ∈ l) (h : ∀ x ∈ l, x ≤ v) :
    listMaxI l = v := by
  have h1 : listMaxI l ≤ v := h _ (listMaxI_mem l (List.ne_nil_of_mem hv))
  exact le_antisymm h1 (listMaxI_ge l v hv)

lemma foldl_min_le (xs : List Int) (a : Int) : xs.foldl min a ≤ a := by
  induction xs generalizing a with
  | nil => exact le_refl a
  | cons x xs ih => exact le_trans (ih (min a x)) (min_le_left a x)

lemma foldl_min_le_of_mem (xs : List Int) (a x : Int) (hx : x ∈ xs) : xs.foldl min a ≤ x := by
  induction xs generalizing a with
  | nil => cases hx
  | cons y ys ih =>
    rcases List.mem_cons.mp hx with h | h
    · subst h
      exact le_trans (foldl_min_le ys (min a x)) (min_le_right a x)
    · exact ih (min a y) h

lemma foldl_min_mem_cons (xs : List Int) (a : Int) : xs.foldl min a ∈ a :: xs := by
  induction xs generalizing a with
  | nil => exact List.mem_singleton.mpr rfl
  | cons y ys ih =>
    have h := ih (min a y)
    rcases List.mem_cons.mp h with h1 | h1
    · rcases min_choice a y with h2 | h2
      · exact List.mem_cons.mpr (Or.inl (by rw [List.foldl_cons, h1, h2]))
      · refine List.mem_cons.mpr (Or.inr ?_)
        exact List.mem_cons.mpr (Or.inl (by rw [List.foldl_cons, h1, h2]))
    · exact List.mem_cons.mpr (Or.inr (List.mem_cons.mpr (Or.inr h1)))

lemma listMinI_le (l : List Int) (x : Int) (hx : x ∈ l) : listMinI l ≤ x := by
  cases l with
  | nil => cases hx
  | cons y ys =>
    rcases List.mem_cons.mp hx with h | h
    · subst h; exact foldl_min_le ys x
    · exact foldl_min_le_of_mem ys y x h

lemma listMinI_mem (l : List Int) (hl : l ≠ []) : listMinI l ∈ l := by
  cases l with
  | nil => exact absurd rfl hl
  | cons y ys => exact foldl_min_mem_cons ys y

lemma listMinI_eq_of (l : List Int) (v : Int) (hv : v ∈ l) (h : ∀ x ∈ l, v ≤ x) :
    listMinI l = v := by
  have h1 : v ≤ listMinI l := h _ (listMinI_mem l (List.ne_nil_of_mem hv))
  exact le_antisymm (listMinI_le l v hv) h1

lemma listMinI_le_listMaxI (l : List Int) (hl : l ≠ []) : listMinI l ≤ listMaxI l :=
  le_trans (listMinI_le l _ (listMaxI_mem l hl)) (le_refl _)

/-! ## Helper lemmas: the cumulative group counter -/

lemma groupGo_length (loads : List (Option Int)) (prev : Option (Option Int)) (acc : Nat) :
    (groupGo prev acc loads).length = loads.length := by
  induction loads generalizing prev acc with
  | nil => rfl
  | cons l ls ih => simp [groupGo, ih]

lemma calculate_group_number_length (loads : List (Option Int)) :
    (calculate_group_number loads).length = loads.length :=
  groupGo_length loads none 0

lemma groupGo_head_cons (prev : Option (Option Int)) (acc : Nat) (l : Option Int)
    (ls : List (Option Int)) :
    groupGo prev acc (l :: ls)
      = (if labelDiffers prev l then acc + 1 else acc)
        :: groupGo (some l) (if labelDiffers prev l then acc + 1 else acc) ls := rfl

lemma groupGo_zip_chain (loads : List (Option Int)) (prev : Option (Option Int)) (acc : Nat) :
    List.Chain' (fun p q : Option Int × Nat =>
        q.2 = if labelDiffers (some p.1) q.1 then p.2 + 1 else p.2)
      (loads.zip (groupGo prev acc loads)) := by
  induction loads generalizing prev acc with
  | nil => simp
  | cons l ls ih =>
    rw [groupGo_head_cons, List.zip_cons_cons]
    refine List.chain'_cons'.mpr ⟨?_, ih (some l) _⟩
    intro b hb
    cases ls with
    | nil => simp at hb
    | cons x xs =>
      rw [groupGo_head_cons, List.zip_cons_cons] at hb
      simp at hb
      subst hb
      rfl

lemma groupGo_chain_le (loads : List (Option Int)) (prev : Option (Option Int)) (acc : Nat) :
    List.Chain' (· ≤ ·) (groupGo prev acc loads) := by
  induction loads generalizing prev acc with
  | nil => simp [groupGo]
  | cons l ls ih =>
    rw [groupGo_head_cons]
    refine List.chain'_cons'.mpr ⟨?_, ih (some l) _⟩
    intro b hb
    cases ls with
    | nil => simp [groupGo] at hb
    | cons x xs =>
      rw [groupGo_head_cons] at hb
      simp at hb
      rw [← hb]
      split <;> split <;> omega

lemma calculate_group_number_head (l : Option Int) (ls : List (Option Int)) :
    (calculate_group_number (l :: ls)).head? = some 1 := by
  simp [calculate_group_number, groupGo_head_cons, labelDiffers]

/-! ## Helper lemmas: the annotation stage -/

lemma diffDeltas_length (crs : List Record) (prev : Option Int) :
    (diffDeltas prev crs).length = crs.length := by
  induction crs generalizing prev with
  | nil => rfl
  | cons r rs ih => simp [diffDeltas, ih]

lemma nullLargeDeltas_length (gap : Int) (ds : List (Option Int)) :
    (nullLargeDeltas gap ds).length = ds.length := by
  simp [nullLargeDeltas]

lemma zipRecs_map_group (rs : List Record) (ds : List (Option Int)) (gs : List Nat)
    (hd : ds.length = rs.length) (hg : gs.length = rs.length) :
    (zipRecs rs ds gs).map (fun a => a.group_number) = gs := by
  induction rs generalizing ds gs with
  | nil =>
    cases gs with
    | nil => rfl
    | cons g gs => simp at hg
  | cons r rs ih =>
    cases ds with
    | nil => simp at hd
    | cons d ds =>
      cases gs with
      | nil => simp at hg
      | cons g gs =>
        simp [zipRecs]
        exact ih ds gs (by simpa using hd) (by simpa using hg)

lemma zipRecs_map_msg_time (rs : List Record) (ds : List (Option Int)) (gs : List Nat)
    (hd : ds.length = rs.length) (hg : gs.length = rs.length) :
    (zipRecs rs ds gs).map (fun a => a.msg_time) = rs.map (fun r => r.msg_time) := by
  induction rs generalizing ds gs with
  | nil => rfl
  | cons r rs ih =>
    cases ds with
    | nil => simp at hd
    | cons d ds =>
      cases gs with
      | nil => simp at hg
      | cons g gs =>
        simp [zipRecs]
        exact ih ds gs (by simpa using hd) (by simpa using hg)

lemma zipRecs_map_load (rs : List Record) (ds : List (Option Int)) (gs : List Nat)
    (hd : ds.length = rs.length) (hg : gs.length = rs.length) :
    (zipRecs rs ds gs).map (fun a => a.load_number) = rs.map (fun r => r.load_number) := by
  induction rs generalizing ds gs with
  | nil => rfl
  | cons r rs ih =>
    cases ds with
    | nil => simp at hd
    | cons d ds =>
      cases gs with
      | nil => simp at hg
      | cons g gs =>
        simp [zipRecs]
        exact ih ds gs (by simpa using hd) (by simpa using hg)

lemma annotateContract_map_group (gap : Int) (crs : List Record) :
    (annotateContract gap crs).map (fun a => a.group_number)
      = calculate_group_number (crs.map (fun r => r.load_number)) := by
  unfold annotateContract
  exact zipRecs_map_group crs _ _
    (by rw [nullLargeDeltas_length, diffDeltas_length])
    (by rw [calculate_group_number_length, List.length_map])

lemma annotateContract_map_msg_time (gap : Int) (crs : List Record) :
    (annotateContract gap crs).map (fun a => a.msg_time) = crs.map (fun r => r.msg_time) := by
  unfold annotateContract
  exact zipRecs_map_msg_time crs _ _
    (by rw [nullLargeDeltas_length, diffDeltas_length])
    (by rw [calculate_group_number_length, List.length_map])

lemma annotateContract_map_load (gap : Int) (crs : List Record) :
    (annotateContract gap crs).map (fun a => a.load_number)
      = crs.map (fun r => r.load_number) := by
  unfold annotateContract
  exact zipRecs_map_load crs _ _
    (by rw [nullLargeDeltas_length, diffDeltas_length])
    (by rw [calculate_group_number_length, List.length_map])

lemma annotateContract_length (gap : Int) (crs : List Record) :
    (annotateContract gap crs).length = crs.length := by
  have h := annotateContract_map_msg_time gap crs
  have h1 := congrArg List.length h
  simpa using h1

/-! ## Helper lemmas: sortedness of the record list -/

lemma sortedByTime_chain (crs : List Record) (h : sortedByTime crs = true) :
    List.Chain' (fun a b : Record => a.msg_time ≤ b.msg_time) crs := by
  induction crs with
  | nil => simp
  | cons a rs ih =>
    cases rs with
    | nil => simp
    | cons b rs2 =>
      simp [sortedByTime] at h
      exact List.chain'_cons.mpr ⟨h.1, ih h.2⟩

lemma sortedByTime_pairwise (crs : List Record) (h : sortedByTime crs = true) :
    List.Pairwise (fun a b : Record => a.msg_time ≤ b.msg_time) crs := by
  have ht : IsTrans Record (fun a b : Record => a.msg_time ≤ b.msg_time) :=
    ⟨fun a b c hab hbc => le_trans hab hbc⟩
  exact (@List.chain'_iff_pairwise _ _ ht).mp (sortedByTime_chain crs h)

/-! ## Helper lemmas: the group keys -/

lemma groupKeys_nodup (anns : List ARecord) : (groupKeys anns).Nodup :=
  List.nodup_dedup _

lemma groupKeys_mem_iff (anns : List ARecord) (g : Nat) :
    g ∈ groupKeys anns ↔ g ∈ anns.map (fun a => a.group_number) := by
  unfold groupKeys
  rw [List.mem_dedup]
  exact (List.perm_insertionSort _ _).mem_iff

/-! ## Helper lemmas: counting members across the group partition -/

lemma sum_map_add_nat {α : Type} (u : List α) (f g : α → Nat) :
    (u.map (fun v => f v + g v)).sum = (u.map f).sum + (u.map g).sum := by
  induction u with
  | nil => rfl
  | cons x xs ih => simp [ih]; omega

lemma sum_indicator_zero (u : List Nat) (a : Nat) (ha : a ∉ u) :
    (u.map (fun v => if a = v then 1 else 0)).sum = 0 := by
  induction u with
  | nil => rfl
  | cons x xs ih =>
    have hax : ¬ a = x := fun h => ha (List.mem_cons.mpr (Or.inl h))
    have ha2 : a ∉ xs := fun h => ha (List.mem_cons.mpr (Or.inr h))
    simp [hax, ih ha2]

lemma sum_indicator_one (u : List Nat) (a : Nat) (hu : u.Nodup) (ha : a ∈ u) :
    (u.map (fun v => if a = v then 1 else 0)).sum = 1 := by
  induction u with
  | nil => cases ha
  | cons x xs ih =>
    rcases List.mem_cons.mp ha with h | h
    · subst h
      have hnot : a ∉ xs := (List.nodup_cons.mp hu).1
      simp [sum_indicator_zero xs a hnot]
    · have hax : ¬ a = x := by
        intro he
        exact (List.nodup_cons.mp hu).1 (he ▸ h)
      simp [hax, ih (List.nodup_cons.mp hu).2 h]

lemma filter_eq_cons_length (a v : Nat) (t : List Nat) :
    ((a :: t).filter (fun x => x = v)).length
      = (if a = v then 1 else 0) + (t.filter (fun x => x = v)).length := by
  by_cases h : a = v
  · simp [List.filter_cons, h]
    omega
  · simp [List.filter_cons, h]

lemma sum_filter_lengths (l : List Nat) (u : List Nat) (hu : u.Nodup)
    (hl : ∀ x ∈ l, x ∈ u) :
    (u.map (fun v => (l.filter (fun x => x = v)).length)).sum = l.length := by
  induction l with
  | nil => simp
  | cons a t ih =>
    have hcong : u.map (fun v => ((a :: t).filter (fun x => x = v)).length)
        = u.map (fun v => (if a = v then 1 else 0) + (t.filter (fun x => x = v)).length) := by
      refine List.map_congr_left ?_
      intro v _
      exact filter_eq_cons_length a v t
    rw [hcong, sum_map_add_nat,
      sum_indicator_one u a hu (hl a (List.mem_cons.mpr (Or.inl rfl))),
      ih (fun x hx => hl x (List.mem_cons.mpr (Or.inr hx)))]
    simp [Nat.add_comm]

lemma filter_group_length_eq (anns : List ARecord) (g : Nat) :
    (anns.filter (fun a => a.group_number = g)).length
      = ((anns.map (fun a => a.group_number)).filter (fun x => x = g)).length := by
  induction anns with
  | nil => rfl
  | cons a t ih => by_cases h : a.group_number = g <;> simp [List.filter_cons, h, ih]

lemma nodup_filter_eq_length_zero (u : List Nat) (v : Nat) (hv : v ∉ u) :
    (u.filter (fun x => x = v)).length = 0 := by
  induction u with
  | nil => rfl
  | cons x xs ih =>
    have hx : ¬ x = v := fun h => hv (List.mem_cons.mpr (Or.inl h.symm))
    have h2 : v ∉ xs := fun h => hv (List.mem_cons.mpr (Or.inr h))
    simp [List.filter_cons, hx, ih h2]

lemma nodup_filter_eq_length_one (u : List Nat) (v : Nat) (hu : u.Nodup) (hv : v ∈ u) :
    (u.filter (fun x => x = v)).length = 1 := by
  induction u with
  | nil => cases hv
  | cons x xs ih =>
    rcases List.mem_cons.mp hv with h | h
    · subst h
      have hnot : v ∉ xs := (List.nodup_cons.mp hu).1
      simp [List.filter_cons, nodup_filter_eq_length_zero xs v hnot]
    · have hx : ¬ x = v := by
        intro he
        exact (List.nodup_cons.mp hu).1 (he ▸ h)
      simp [List.filter_cons, hx, ih (List.nodup_cons.mp hu).2 h]

/-! ## Helper lemmas: interval membership -/

lemma mem_contractIntervals_iff (gap : Int) (c : Int) (crs : List Record) (iv : LoadInterval) :
    iv ∈ contractIntervals gap c crs
      ↔ ∃ g ∈ groupKeys (annotateContract gap crs),
          mkInterval c g ((annotateContract gap crs).filter (fun a => a.group_number = g)) = iv := by
  unfold contractIntervals
  exact List.mem_map

lemma contractIntervals_contract (gap : Int) (c : Int) (crs : List Record) :
    ∀ iv ∈ contractIntervals gap c crs, iv.contract = c := by
  intro iv hm
  rcases (mem_contractIntervals_iff gap c crs iv).mp hm with ⟨g, _, hiv⟩
  rw [← hiv]
  rfl

lemma groupKeys_filter_ne_nil (gap : Int) (crs : List Record) (g : Nat)
    (hg : g ∈ groupKeys (annotateContract gap crs)) :
    (annotateContract gap crs).filter (fun a => a.group_number = g) ≠ [] := by
  have h1 : g ∈ (annotateContract gap crs).map (fun a => a.group_number) :=
    (groupKeys_mem_iff _ g).mp hg
  rcases List.mem_map.mp h1 with ⟨a, ha, hag⟩
  have h2 : a ∈ (annotateContract gap crs).filter (fun a => a.group_number = g) :=
    List.mem_filter.mpr ⟨ha, by simp [hag]⟩
  exact List.ne_nil_of_mem h2

lemma contractIntervals_points_pos (gap : Int) (c : Int) (crs : List Record) :
    ∀ iv ∈ contractIntervals gap c crs, 1 ≤ iv.total_points := by
  intro iv hm
  rcases (mem_contractIntervals_iff gap c crs iv).mp hm with ⟨g, hg, hiv⟩
  rw [← hiv]
  show 1 ≤ ((annotateContract gap crs).filter (fun a => a.group_number = g)).length
  have h := groupKeys_filter_ne_nil gap crs g hg
  cases hF : (annotateContract gap crs).filter (fun a => a.group_number = g) with
  | nil => exact absurd hF h
  | cons x xs => simp [hF]

lemma contractIntervals_min_le_max (gap : Int) (c : Int) (crs : List Record) :
    ∀ iv ∈ contractIntervals gap c crs, iv.msg_time_min ≤ iv.msg_time_max := by
  intro iv hm
  rcases (mem_contractIntervals_iff gap c crs iv).mp hm with ⟨g, hg, hiv⟩
  rw [← hiv]
  show listMinI _ ≤ listMaxI _
  refine listMinI_le_listMaxI _ ?_
  have h := groupKeys_filter_ne_nil gap crs g hg
  intro hmap
  exact h (List.map_eq_nil_iff.mp hmap)

lemma annotate_head_group (gap : Int) (crs : List Record) (h : crs ≠ []) :
    ((annotateContract gap crs).map (fun a => a.group_number)).head? = some 1 := by
  rw [annotateContract_map_group]
  cases crs with
  | nil => exact absurd rfl h
  | cons r rest => exact calculate_group_number_head _ _

/-- C3: within a contract (the records of contract `c` in time order), the
group id of each record equals its predecessor's group id plus one when the
load labels differ — a null label counting as different from everything,
another null included — and equals the predecessor's group id otherwise;
the first record of the contract gets group id 1, and the group ids are
non-decreasing along the contract's time order. -/
theorem C3_segmentation (gap : Int) (rs : List Record) (c : Int) :
    List.Chain' (fun p q : Option Int × Nat =>
        q.2 = if labelDiffers (some p.1) q.1 then p.2 + 1 else p.2)
      (((rs.filter (fun r => r.contract_id = c)).map (fun r => r.load_number)).zip
        ((annotateContract gap (rs.filter (fun r => r.contract_id = c))).map
          (fun a => a.group_number)))
  ∧ (rs.filter (fun r => r.contract_id = c) ≠ [] →
      ((annotateContract gap (rs.filter (fun r => r.contract_id = c))).map
        (fun a => a.group_number)).head? = some 1)
  ∧ List.Chain' (· ≤ ·)
      ((annotateContract gap (rs.filter (fun r => r.contract_id = c))).map
        (fun a => a.group_number)) := by
  refine ⟨?_, ?_, ?_⟩
  · rw [annotateContract_map_group]
    exact groupGo_zip_chain _ none 0
  · intro h
    exact annotate_head_group gap _ h
  · rw [annotateContract_map_group]
    exact groupGo_chain_le _ none 0

/-- Witness for C3 at a concrete input: contract 1 of `rsC3` is nonempty
and its first record receives group id 1. -/
theorem C3_segmentation_witness :
    rsC3.filter (fun r => r.contract_id = 1) ≠ []
  ∧ ((annotateContract 5 (rsC3.filter (fun r => r.contract_id = 1))).map
      (fun a => a.group_number)).head? = some 1 :=
  ⟨by decide, (C3_segmentation 5 rsC3 1).2.1 (by decide)⟩

/-- C4: the intervals of one contract partition its records — the interval
point counts sum to the contract's record count, every interval holds at
least one record, and each record's group number matches exactly one
interval of the contract. -/
theorem C4_partition (gap : Int) (c : Int) (crs : List Record) :
    ((contractIntervals gap c crs).map (fun iv => iv.total_points)).sum = crs.length
  ∧ (∀ iv ∈ contractIntervals gap c crs, 1 ≤ iv.total_points)
  ∧ (∀ a ∈ annotateContract gap crs,
      ((contractIntervals gap c crs).filter
        (fun iv => iv.group = a.group_number)).length = 1) := by
  refine ⟨?_, contractIntervals_points_pos gap c crs, ?_⟩
  · unfold contractIntervals
    rw [List.map_map]
    have h1 : ((fun iv : LoadInterval => iv.total_points) ∘ fun g =>
          mkInterval c g ((annotateContract gap crs).filter (fun a => a.group_number = g)))
        = fun g => (((annotateContract gap crs).map (fun a => a.group_number)).filter
            (fun x => x = g)).length := by
      funext g
      exact filter_group_length_eq _ g
    rw [h1, sum_filter_lengths _ _ (groupKeys_nodup _)
      (fun x hx => (groupKeys_mem_iff _ x).mpr hx), List.length_map]
    exact annotateContract_length gap crs
  · intro a ha
    unfold contractIntervals
    rw [List.filter_map, List.length_map]
    exact nodup_filter_eq_length_one _ _ (groupKeys_nodup _)
      ((groupKeys_mem_iff _ _).mpr (List.mem_map_of_mem _ ha))

lemma lenC4 : 0 < (contractIntervals 5 1 (rsC4.filter (fun r => r.contract_id = 1))).length := by
  decide

/-- Witness for C4 at a concrete input: for contract 1 of `rsC4`, the
interval point counts sum to the contract's record count, and the first
interval holds at least one record. -/
theorem C4_partition_witness :
    ((contractIntervals 5 1 (rsC4.filter (fun r => r.contract_id = 1))).map
      (fun iv => iv.total_points)).sum = (rsC4.filter (fun r => r.contract_id = 1)).length
  ∧ 1 ≤ ((contractIntervals 5 1 (rsC4.filter (fun r => r.contract_id = 1))).get
      ⟨0, lenC4⟩).total_points :=
  ⟨(C4_partition 5 1 (rsC4.filter (fun r => r.contract_id = 1))).1,
    (C4_partition 5 1 (rsC4.filter (fun r => r.contract_id = 1))).2.1 _
      (List.get_mem _ 0 lenC4)⟩

/-- C5: the emitted output has exactly one row per input record — no rows
introduced or dropped (the output rows are a permutation of the input
records once the ten appended flag columns are stripped), with every
passthrough field unchanged; the `OutRecord` shape carries exactly the
ten flag columns and no `group_number`/`time_delta` column. -/
theorem C5_output_shape (cfg : Config) (rs : List Record) :
    List.Perm ((processRecords cfg rs).map stripFlags) rs
  ∧ (processRecords cfg rs).length = rs.length := by
  have h2 : (processRecords cfg rs).map stripFlags
      = List.insertionSort recLe (List.insertionSort recLe rs) := by
    simp only [processRecords, backfill, List.map_map]
    exact List.map_id _
  have hperm : List.Perm ((processRecords cfg rs).map stripFlags) rs := by
    rw [h2]
    exact (List.perm_insertionSort recLe _).trans (List.perm_insertionSort recLe rs)
  refine ⟨hperm, ?_⟩
  have h3 := hperm.length_eq
  rw [List.length_map] at h3
  exact h3

lemma to_datetime_error (raws : List RawRecord)
    (h : ∃ r ∈ raws, r.msg_time_text = none) :
    to_datetime raws = Except.error ParseError.unparseable := by
  induction raws with
  | nil =>
    rcases h with ⟨r, hr, _⟩
    cases hr
  | cons r rs ih =>
    rcases h with ⟨x, hx, hnone⟩
    rcases List.mem_cons.mp hx with h1 | h1
    · subst h1
      simp [to_datetime, hnone]
    · cases hmt : r.msg_time_text with
      | none => simp [to_datetime, hmt]
      | some t =>
        have htail := ih ⟨x, h1, hnone⟩
        simp [to_datetime, hmt, htail]

/-- C8 counterexample: on a concrete input whose middle row has an
unparseable timestamp while two rows are parseable, the run yields no
output at all — `pd.to_datetime` raises and the whole run aborts — rather
than continuing over the remaining rows as the claim states. -/
theorem C8_parse_abort_counterexample :
    runPipeline cfgC8 rawsC8 = Except.error ParseError.unparseable
  ∧ (rawsC8.filter (fun r => r.msg_time_text ≠ none)).length = 2 := by
  constructor
  · rfl
  · rfl

/-- C8 amended: a single unparseable timestamp aborts the whole run with a
parse error; no row is skipped-and-reported and no partial output is
produced. -/
theorem C8_parse_abort (cfg : Config) (raws : List RawRecord)
    (h : ∃ r ∈ raws, r.msg_time_text = none) :
    runPipeline cfg raws = Except.error ParseError.unparseable := by
  unfold runPipeline
  rw [to_datetime_error raws h]

/-- Witness for the amended C8 at a concrete input. -/
theorem C8_parse_abort_witness :
    (∃ r ∈ rawsC8, r.msg_time_text = none)
  ∧ runPipeline cfgC8 rawsC8 = Except.error ParseError.unparseable :=
  ⟨by decide, C8_parse_abort cfgC8 rawsC8 (by decide)⟩

/-! ## Helper lemmas: the flagged interval frame -/

lemma mkFIv_invalid_load_eq (cfg : Config) (loads : List (Option Int)) (o n : Nat)
    (iv : LoadInterval) :
    (mkFIv cfg loads o n iv).invalid_load
      = if (mkFIv cfg loads o n iv).invalid_load_duration_short ≠ 0
          ∨ (mkFIv cfg loads o n iv).invalid_load_duration_long ≠ 0
          ∨ (mkFIv cfg loads o n iv).invalid_load_point_count_low ≠ 0
          ∨ (mkFIv cfg loads o n iv).invalid_load_point_count_high ≠ 0
          ∨ (mkFIv cfg loads o n iv).invalid_load_reporting_gap ≠ 0
          ∨ (mkFIv cfg loads o n iv).invalid_load_ping_rate ≠ 0
          ∨ (mkFIv cfg loads o n iv).invalid_load_overlap ≠ 0
          ∨ (mkFIv cfg loads o n iv).invalid_load_noncontiguous ≠ 0
          ∨ (mkFIv cfg loads o n iv).invalid_load_duplicate ≠ 0 then 1 else 0 := rfl

lemma noncontigScan_length (thr : Int) (prev : Option Int) (ivs : List LoadInterval) :
    (noncontigScan thr prev ivs).length = ivs.length := by
  induction ivs generalizing prev with
  | nil => rfl
  | cons iv ivs ih => simp [noncontigScan, ih]

lemma overlapFlags_length (ivs : List LoadInterval) :
    (overlapFlags ivs).length = ivs.length := by
  simp [overlapFlags]

lemma attachFlags_length (cfg : Config) (loads : List (Option Int)) (os ns : List Nat)
    (ivs : List LoadInterval) (ho : os.length = ivs.length) (hn : ns.length = ivs.length) :
    (attachFlags cfg loads os ns ivs).length = ivs.length := by
  induction ivs generalizing os ns with
  | nil =>
    cases os with
    | nil => rfl
    | cons o os => simp at ho
  | cons iv ivs ih =>
    cases os with
    | nil => simp at ho
    | cons o os =>
      cases ns with
      | nil => simp at hn
      | cons n ns =>
        simp [attachFlags]
        exact ih os ns (by simpa using ho) (by simpa using hn)

lemma attachFlags_getElem (cfg : Config) (loads : List (Option Int)) (os ns : List Nat)
    (ivs : List LoadInterval) (i : Nat) (hi : i < ivs.length)
    (ho : os.length = ivs.length) (hn : ns.length = ivs.length) :
    (attachFlags cfg loads os ns ivs).get
        ⟨i, by rw [attachFlags_length cfg loads os ns ivs ho hn]; exact hi⟩
      = mkFIv cfg loads (os.get ⟨i, by rw [ho]; exact hi⟩)
          (ns.get ⟨i, by rw [hn]; exact hi⟩) (ivs.get ⟨i, hi⟩) := by
  induction ivs generalizing os ns i with
  | nil => cases hi
  | cons iv ivs ih =>
    cases os with
    | nil => simp at ho
    | cons o os =>
      cases ns with
      | nil => simp at hn
      | cons n ns =>
        cases i with
        | zero => rfl
        | succ j =>
          have hj : j < ivs.length := by simpa using hi
          exact ih os ns j hj (by simpa using ho) (by simpa using hn)

lemma mem_attachFlags (cfg : Config) (loads : List (Option Int)) (os ns : List Nat)
    (ivs : List LoadInterval) (ho : os.length = ivs.length) (hn : ns.length = ivs.length)
    (fi : FIv) (h : fi ∈ attachFlags cfg loads os ns ivs) :
    ∃ o n iv, iv ∈ ivs ∧ fi = mkFIv cfg loads o n iv := by
  rcases List.mem_iff_get.mp h with ⟨⟨i, hlen⟩, hget⟩
  have hi : i < ivs.length := by
    rw [attachFlags_length cfg loads os ns ivs ho hn] at hlen
    exact hlen
  refine ⟨os.get ⟨i, by rw [ho]; exact hi⟩, ns.get ⟨i, by rw [hn]; exact hi⟩,
    ivs.get ⟨i, hi⟩, List.get_mem ivs i hi, ?_⟩
  rw [← hget]
  exact (attachFlags_getElem cfg loads os ns ivs i hi ho hn).symm.symm

lemma sortedIntervals_length (cfg : Config) (c : Int) (crs : List Record) :
    (sortedIntervals cfg c crs).length
      = (contractIntervals cfg.contract_gap_threshold c crs).length :=
  (List.perm_insertionSort ivLe _).length_eq

lemma sortedIntervals_mem_iff (cfg : Config) (c : Int) (crs : List Record) (iv : LoadInterval) :
    iv ∈ sortedIntervals cfg c crs ↔ iv ∈ contractIntervals cfg.contract_gap_threshold c crs :=
  (List.perm_insertionSort ivLe _).mem_iff

lemma flagContract_length (cfg : Config) (c : Int) (crs : List Record) :
    (flagContract cfg c crs).length = (sortedIntervals cfg c crs).length := by
  unfold flagContract
  exact attachFlags_length cfg _ _ _ _ (overlapFlags_length _) (noncontigScan_length _ _ _)

lemma mem_flagContract (cfg : Config) (c : Int) (crs : List Record) (fi : FIv)
    (h : fi ∈ flagContract cfg c crs) :
    ∃ o n iv, iv ∈ contractIntervals cfg.contract_gap_threshold c crs
      ∧ fi = mkFIv cfg ((sortedIntervals cfg c crs).map (fun iv => iv.load)) o n iv := by
  unfold flagContract at h
  rcases mem_attachFlags cfg _ _ _ _ (overlapFlags_length _) (noncontigScan_length _ _ _) fi h
    with ⟨o, n, iv, hiv, hfi⟩
  exact ⟨o, n, iv, (sortedIntervals_mem_iff cfg c crs iv).mp hiv, hfi⟩

/-- C6: for every flagged interval row of a contract, the point count is
at least 1 (so the ping-rate estimate never divides by zero), and when the
interval's average delta is null both the reporting-gap flag and the
ping-rate flag evaluate to 0 — the null average never satisfies either
comparison, and both evaluations are total functions of the row. -/
theorem C6_null_avg_safe (cfg : Config) (c : Int) (crs : List Record) (fi : FIv)
    (h : fi ∈ flagContract cfg c crs) :
    1 ≤ fi.total_points
  ∧ (fi.time_delta_avg = none →
      fi.invalid_load_reporting_gap = 0 ∧ fi.invalid_load_ping_rate = 0) := by
  rcases mem_flagContract cfg c crs fi h with ⟨o, n, iv, hiv, hfi⟩
  subst hfi
  constructor
  · show 1 ≤ iv.total_points
    exact contractIntervals_points_pos _ c crs iv hiv
  · intro hnone
    have hnone2 : iv.time_delta_avg = none := hnone
    constructor
    · show invalid_load_reporting_gap cfg iv = 0
      simp [invalid_load_reporting_gap, hnone2]
    · show flag_invalid_ping_rates cfg iv = 0
      simp [flag_invalid_ping_rates, hnone2]

lemma lenC6 : 0 < (flagContract cfgC6 1 crsC6).length := by decide

/-- Witness for C6 at a concrete input: the single-record interval of
`crsC6` has a null average delta, a positive point count, and 0 in both
flags. -/
theorem C6_null_avg_safe_witness :
    ((flagContract cfgC6 1 crsC6).get ⟨0, lenC6⟩).time_delta_avg = none
  ∧ 1 ≤ ((flagContract cfgC6 1 crsC6).get ⟨0, lenC6⟩).total_points
  ∧ ((flagContract cfgC6 1 crsC6).get ⟨0, lenC6⟩).invalid_load_reporting_gap = 0
  ∧ ((flagContract cfgC6 1 crsC6).get ⟨0, lenC6⟩).invalid_load_ping_rate = 0 := by
  have hmem := List.get_mem (flagContract cfgC6 1 crsC6) 0 lenC6
  have h := C6_null_avg_safe cfgC6 1 crsC6 _ hmem
  have hnone : ((flagContract cfgC6 1 crsC6).get ⟨0, lenC6⟩).time_delta_avg = none := by decide
  exact ⟨hnone, h.1, (h.2 hnone).1, (h.2 hnone).2⟩

/-- C9: for every flagged interval row, `invalid_load` is 1 when at least
one of the nine flag columns is 1, and 0 when all nine are 0 — a plain
logical OR, with no weighting or count threshold. -/
theorem C9_invalid_load_or (cfg : Config) (c : Int) (crs : List Record) (fi : FIv)
    (h : fi ∈ flagContract cfg c crs) :
    ((fi.invalid_load_duration_short = 1 ∨ fi.invalid_load_duration_long = 1
        ∨ fi.invalid_load_point_count_low = 1 ∨ fi.invalid_load_point_count_high = 1
        ∨ fi.invalid_load_reporting_gap = 1 ∨ fi.invalid_load_ping_rate = 1
        ∨ fi.invalid_load_overlap = 1 ∨ fi.invalid_load_noncontiguous = 1
        ∨ fi.invalid_load_duplicate = 1) → fi.invalid_load = 1)
  ∧ ((fi.invalid_load_duration_short = 0 ∧ fi.invalid_load_duration_long = 0
        ∧ fi.invalid_load_point_count_low = 0 ∧ fi.invalid_load_point_count_high = 0
        ∧ fi.invalid_load_reporting_gap = 0 ∧ fi.invalid_load_ping_rate = 0
        ∧ fi.invalid_load_overlap = 0 ∧ fi.invalid_load_noncontiguous = 0
        ∧ fi.invalid_load_duplicate = 0) → fi.invalid_load = 0) := by
  rcases mem_flagContract cfg c crs fi h with ⟨o, n, iv, hiv, hfi⟩
  have heq := mkFIv_invalid_load_eq cfg
    ((sortedIntervals cfg c crs).map (fun iv => iv.load)) o n iv
  rw [← hfi] at heq
  constructor
  · intro hdisj
    have hA : fi.invalid_load_duration_short ≠ 0 ∨ fi.invalid_load_duration_long ≠ 0
        ∨ fi.invalid_load_point_count_low ≠ 0 ∨ fi.invalid_load_point_count_high ≠ 0
        ∨ fi.invalid_load_reporting_gap ≠ 0 ∨ fi.invalid_load_ping_rate ≠ 0
        ∨ fi.invalid_load_overlap ≠ 0 ∨ fi.invalid_load_noncontiguous ≠ 0
        ∨ fi.invalid_load_duplicate ≠ 0 := by omega
    rw [heq, if_pos hA]
  · intro hall
    have hA : ¬ (fi.invalid_load_duration_short ≠ 0 ∨ fi.invalid_load_duration_long ≠ 0
        ∨ fi.invalid_load_point_count_low ≠ 0 ∨ fi.invalid_load_point_count_high ≠ 0
        ∨ fi.invalid_load_reporting_gap ≠ 0 ∨ fi.invalid_load_ping_rate ≠ 0
        ∨ fi.invalid_load_overlap ≠ 0 ∨ fi.invalid_load_noncontiguous ≠ 0
        ∨ fi.invalid_load_duplicate ≠ 0) := by omega
    rw [heq, if_neg hA]

lemma lenC9 : 0 < (flagContract cfgC9 1 crsC9).length := by decide

/-- Witness for C9 at a concrete input: the single interval of `crsC9` is
flagged for a low point count, and that alone sets `invalid_load`. -/
theorem C9_invalid_load_or_witness :
    ((flagContract cfgC9 1 crsC9).get ⟨0, lenC9⟩).invalid_load_point_count_low = 1
  ∧ ((flagContract cfgC9 1 crsC9).get ⟨0, lenC9⟩).invalid_load = 1 := by
  have hmem := List.get_mem (flagContract cfgC9 1 crsC9) 0 lenC9
  have h := C9_invalid_load_or cfgC9 1 crsC9 _ hmem
  have hlow : ((flagContract cfgC9 1 crsC9).get ⟨0, lenC9⟩).invalid_load_point_count_low = 1 := by
    decide
  exact ⟨hlow, h.1 (Or.inr (Or.inr (Or.inl hlow)))⟩

lemma noncontigScan_get_zero_none (thr : Int) (ivs : List LoadInterval) (h : 0 < ivs.length) :
    (noncontigScan thr none ivs).get ⟨0, by rw [noncontigScan_length]; exact h⟩ = 0 := by
  cases ivs with
  | nil => cases h
  | cons iv rest => rfl

lemma noncontigScan_get_succ (thr : Int) (ivs : List LoadInterval) (prev : Option Int)
    (i : Nat) (hi : i + 1 < ivs.length) :
    (noncontigScan thr prev ivs).get ⟨i + 1, by rw [noncontigScan_length]; exact hi⟩
      = if thr < |(ivs.get ⟨i + 1, hi⟩).msg_time_min
          - (ivs.get ⟨i, by omega⟩).msg_time_max| then 1 else 0 := by
  induction ivs generalizing prev i with
  | nil => cases hi
  | cons iv ivs ih =>
    cases i with
    | zero =>
      cases ivs with
      | nil => simp at hi
      | cons b rest => rfl
    | succ j =>
      have hj : j + 1 < ivs.length := by simpa using hi
      exact ih (some iv.msg_time_max) j hj

lemma flagContract_get (cfg : Config) (c : Int) (crs : List Record) (i : Nat)
    (hi : i < (sortedIntervals cfg c crs).length) :
    (flagContract cfg c crs).get ⟨i, by rw [flagContract_length]; exact hi⟩
      = mkFIv cfg ((sortedIntervals cfg c crs).map (fun iv => iv.load))
          ((overlapFlags (sortedIntervals cfg c crs)).get
            ⟨i, by rw [overlapFlags_length]; exact hi⟩)
          ((noncontigScan cfg.load_gap_threshold none (sortedIntervals cfg c crs)).get
            ⟨i, by rw [noncontigScan_length]; exact hi⟩)
          ((sortedIntervals cfg c crs).get ⟨i, hi⟩) :=
  attachFlags_getElem cfg _ _ _ _ i hi (overlapFlags_length _) (noncontigScan_length _ _ _)

lemma sortedIntervals_sorted (cfg : Config) (c : Int) (crs : List Record) :
    List.Sorted ivLe (sortedIntervals cfg c crs) :=
  List.sorted_insertionSort ivLe _

/-- C7: in a contract's flagged interval list (rows in interval order),
every row belongs to the contract, row 0 — the one with the least
`msg_time_min` — is never flagged noncontiguous, and each later row is
flagged noncontiguous exactly when the absolute gap between its
`msg_time_min` and its same-contract predecessor's `msg_time_max` exceeds
`load_gap_threshold`. -/
theorem C7_noncontiguous (cfg : Config) (c : Int) (crs : List Record) (i : Nat)
    (hi : i < (flagContract cfg c crs).length) :
    ((flagContract cfg c crs).get ⟨i, hi⟩).contract = c
  ∧ (i = 0 → ((flagContract cfg c crs).get ⟨i, hi⟩).invalid_load_noncontiguous = 0)
  ∧ (i = 0 → ∀ (j : Nat) (hj : j < (flagContract cfg c crs).length),
      ((flagContract cfg c crs).get ⟨i, hi⟩).msg_time_min
        ≤ ((flagContract cfg c crs).get ⟨j, hj⟩).msg_time_min)
  ∧ (∀ hs : i + 1 < (flagContract cfg c crs).length,
      ((flagContract cfg c crs).get ⟨i + 1, hs⟩).invalid_load_noncontiguous
        = if cfg.load_gap_threshold <
            |((flagContract cfg c crs).get ⟨i + 1, hs⟩).msg_time_min
              - ((flagContract cfg c crs).get ⟨i, hi⟩).msg_time_max| then 1 else 0) := by
  have hiS : i < (sortedIntervals cfg c crs).length := by
    rw [← flagContract_length cfg c crs]
    exact hi
  have hget := flagContract_get cfg c crs i hiS
  refine ⟨?_, ?_, ?_, ?_⟩
  · rw [hget]
    show ((sortedIntervals cfg c crs).get ⟨i, hiS⟩).contract = c
    exact contractIntervals_contract _ c crs _
      ((sortedIntervals_mem_iff _ _ _ _).mp (List.get_mem _ i hiS))
  · intro h0
    subst h0
    rw [hget]
    show (noncontigScan cfg.load_gap_threshold none (sortedIntervals cfg c crs)).get
      ⟨0, by rw [noncontigScan_length]; exact hiS⟩ = 0
    exact noncontigScan_get_zero_none _ _ hiS
  · intro h0 j hj
    subst h0
    have hjS : j < (sortedIntervals cfg c crs).length := by
      rw [← flagContract_length cfg c crs]
      exact hj
    have hgetj := flagContract_get cfg c crs j hjS
    rw [hget, hgetj]
    show ((sortedIntervals cfg c crs).get ⟨0, hiS⟩).msg_time_min
      ≤ ((sortedIntervals cfg c crs).get ⟨j, hjS⟩).msg_time_min
    rcases Nat.eq_zero_or_pos j with hj0 | hjpos
    · subst hj0
      exact le_refl _
    · have hpair := List.pairwise_iff_get.mp (sortedIntervals_sorted cfg c crs)
        ⟨0, hiS⟩ ⟨j, hjS⟩ hjpos
      rcases hpair with hlt | ⟨heq, _⟩
      · exact le_of_lt hlt
      · exact le_of_eq heq
  · intro hs
    have hsS : i + 1 < (sortedIntervals cfg c crs).length := by
      rw [← flagContract_length cfg c crs]
      exact hs
    have hget1 := flagContract_get cfg c crs (i + 1) hsS
    rw [hget, hget1]
    show (noncontigScan cfg.load_gap_threshold none (sortedIntervals cfg c crs)).get
        ⟨i + 1, by rw [noncontigScan_length]; exact hsS⟩
      = if cfg.load_gap_threshold <
          |((sortedIntervals cfg c crs).get ⟨i + 1, hsS⟩).msg_time_min
            - ((sortedIntervals cfg c crs).get ⟨i, hiS⟩).msg_time_max| then 1 else 0
    exact noncontigScan_get_succ _ _ none i hsS

lemma lenC7 : 1 < (flagContract cfgC7 1 crsC7).length := by decide

/-- Witness for C7 at a concrete input: of the two intervals of `crsC7`,
the first is not flagged noncontiguous and the second is flagged according
to the gap comparison. -/
theorem C7_noncontiguous_witness :
    ((flagContract cfgC7 1 crsC7).get
      ⟨0, Nat.lt_trans Nat.zero_lt_one lenC7⟩).invalid_load_noncontiguous = 0
  ∧ ((flagContract cfgC7 1 crsC7).get ⟨1, lenC7⟩).invalid_load_noncontiguous
      = if cfgC7.load_gap_threshold <
          |((flagContract cfgC7 1 crsC7).get ⟨1, lenC7⟩).msg_time_min
            - ((flagContract cfgC7 1 crsC7).get
                ⟨0, Nat.lt_trans Nat.zero_lt_one lenC7⟩).msg_time_max| then 1 else 0 := by
  have h := C7_noncontiguous cfgC7 1 crsC7 0 (Nat.lt_trans Nat.zero_lt_one lenC7)
  exact ⟨h.2.1 rfl, h.2.2.2 lenC7⟩

/-- C1: evaluation at the failing input.  `crsC1` yields three intervals
with loads 1, 2, 1; the two load-1 intervals co-occur in contract 1, yet
the `invalid_load_duplicate` column of every row stays 0 — the mask of
`flag_duplicated_load_numbers` lands in the separately named
`invalid_duplicate_loads` column — and the combined verdict, which reads
`invalid_load_duplicate`, stays 0 on every row as well. -/
theorem C1_duplicate_flag_eval :
    ((flagContract cfgC1 1 crsC1).map
      (fun fi => (fi.load, fi.invalid_load_duplicate, fi.invalid_duplicate_loads)))
      = [(some 1, 0, some 1), (some 2, 0, none), (some 1, 0, some 1)]
  ∧ ((flagContract cfgC1 1 crsC1).map (fun fi => fi.invalid_load)) = [0, 0, 0] := by
  constructor
  · decide
  · decide

/-- C2: evaluation at the failing input.  In `rsC2`, contract 1's record
at time 10 lies inside contract 1's own interval `[0, 10]` (whose
`invalid_load_point_count_low` is 0), yet the backward merge on
`msg_time` alone matches it to the nearest earlier interval key — time 5,
an interval of contract 2 — and attaches that interval's flags
(`invalid_load_point_count_low = 1`). -/
theorem C2_backfill_cross_contract_eval :
    ((backfill cfgC2 rsC2).map
      (fun o => (o.contract_id, o.msg_time,
        o.flags.map (fun f => f.invalid_load_point_count_low))))
      = [(1, 0, some 0), (2, 5, some 1), (1, 10, some 1)]
  ∧ ((asofLookup (List.insertionSort fivLe (allFlagged cfgC2 rsC2)) 10).map
      (fun fi => fi.contract)) = some 2
  ∧ ((flagContract cfgC2 1 (rsC2.filter (fun r => r.contract_id = 1))).map
      (fun fi => (fi.msg_time_min, fi.msg_time_max, fi.invalid_load_point_count_low)))
      = [(0, 10, 0)] := by
  refine ⟨?_, ?_, ?_⟩
  · decide
  · decide
  · decide

/-! ## Helper lemmas: monotone group ids and times, for the tie scenario -/

lemma annotate_group_pairwise (gap : Int) (crs : List Record) :
    List.Pairwise (· ≤ ·) ((annotateContract gap crs).map (fun a => a.group_number)) := by
  rw [annotateContract_map_group]
  exact List.chain'_iff_pairwise.mp (groupGo_chain_le _ none 0)

lemma annotate_time_pairwise (gap : Int) (crs : List Record) (h : sortedByTime crs = true) :
    List.Pairwise (· ≤ ·) ((annotateContract gap crs).map (fun a => a.msg_time)) := by
  rw [annotateContract_map_msg_time]
  exact (sortedByTime_pairwise crs h).map _ (fun a b hab => hab)

lemma overlapFlags_get_one (ivs : List LoadInterval) (k : Nat) (hk : k < ivs.length)
    (j : Nat) (hj : j < ivs.length) (hne : j ≠ k)
    (hov : ivOverlaps (ivs.get ⟨k, hk⟩) (ivs.get ⟨j, hj⟩) = true) :
    (overlapFlags ivs).get ⟨k, by rw [overlapFlags_length]; exact hk⟩ = 1 := by
  have h1 : (overlapFlags ivs).get ⟨k, by rw [overlapFlags_length]; exact hk⟩
      = if ivs.enum.any (fun q => ((k : Nat) != q.1) && ivOverlaps (ivs.get ⟨k, hk⟩) q.2)
        then 1 else 0 := by
    show (ivs.enum.map _).get _ = _
    rw [List.get_eq_getElem, List.getElem_map, List.getElem_enum]
    rfl
  rw [h1, if_pos]
  refine List.any_eq_true.mpr ⟨(j, ivs.get ⟨j, hj⟩), ?_, ?_⟩
  · have hje : j < ivs.enum.length := by simpa using hj
    have h2 : ivs.enum[j] = (j, ivs.get ⟨j, hj⟩) := List.getElem_enum _ _ hje
    rw [← h2]
    exact List.getElem_mem hje
  · have hbne : ((k : Nat) != j) = true := bne_iff_ne.mpr (fun hkj => hne hkj.symm)
    simp [hbne]
    exact hov

/-- C10: on time-sorted records of a contract, when the boundary between
group `g` and group `g + 1` falls between two records carrying the same
timestamp `t` (a timestamp tie at the label change), both intervals
exist, the group-`g` interval's `msg_time_max` and the group-`(g+1)`
interval's `msg_time_min` both equal the boundary time `t`, and — the
interval ranges being closed on both ends — both rows are flagged
`invalid_load_overlap = 1` even though their record sets are disjoint. -/
theorem C10_tie_overlap (cfg : Config) (c : Int) (crs : List Record) (i : Nat)
    (g : Nat) (t : Int)
    (hsorted : sortedByTime crs = true)
    (h1 : i + 1 < (annotateContract cfg.contract_gap_threshold crs).length)
    (hgi : (annotateContract cfg.contract_gap_threshold crs)[i].group_number = g)
    (hstep : (annotateContract cfg.contract_gap_threshold crs)[i + 1].group_number = g + 1)
    (hti : (annotateContract cfg.contract_gap_threshold crs)[i].msg_time = t)
    (hti1 : (annotateContract cfg.contract_gap_threshold crs)[i + 1].msg_time = t) :
    (∃ iv ∈ contractIntervals cfg.contract_gap_threshold c crs, iv.group = g)
  ∧ (∃ iv ∈ contractIntervals cfg.contract_gap_threshold c crs, iv.group = g + 1)
  ∧ (∀ iv ∈ contractIntervals cfg.contract_gap_threshold c crs,
      (iv.group = g → iv.msg_time_max = t) ∧ (iv.group = g + 1 → iv.msg_time_min = t))
  ∧ (∀ fi ∈ flagContract cfg c crs, (fi.group = g ∨ fi.group = g + 1) →
      fi.invalid_load_overlap = 1) := by
  set A := annotateContract cfg.contract_gap_threshold crs with hA
  have hi : i < A.length := by omega
  have hmono : ∀ (p q : Nat) (hp : p < A.length) (hq : q < A.length), p ≤ q →
      A[p].group_number ≤ A[q].group_number := by
    intro p q hp hq hpq
    rcases Nat.eq_or_lt_of_le hpq with he | hlt
    · subst he
      exact le_refl _
    · have hpw := annotate_group_pairwise cfg.contract_gap_threshold crs
      rw [← hA] at hpw
      have hpair := List.pairwise_iff_get.mp hpw ⟨p, by simpa⟩ ⟨q, by simpa⟩ hlt
      simpa using hpair
  have htimes : ∀ (p q : Nat) (hp : p < A.length) (hq : q < A.length), p ≤ q →
      A[p].msg_time ≤ A[q].msg_time := by
    intro p q hp hq hpq
    rcases Nat.eq_or_lt_of_le hpq with he | hlt
    · subst he
      exact le_refl _
    · have hpw := annotate_time_pairwise cfg.contract_gap_threshold crs hsorted
      rw [← hA] at hpw
      have hpair := List.pairwise_iff_get.mp hpw ⟨p, by simpa⟩ ⟨q, by simpa⟩ hlt
      simpa using hpair
  have hle_i : ∀ (j : Nat) (hj : j < A.length), A[j].group_number = g → j ≤ i := by
    intro j hj hgj
    by_contra hji
    have hij : i + 1 ≤ j := by omega
    have h2 := hmono (i + 1) j h1 hj hij
    rw [hstep] at h2
    omega
  have hge_i1 : ∀ (j : Nat) (hj : j < A.length), A[j].group_number = g + 1 → i + 1 ≤ j := by
    intro j hj hgj
    by_contra hji
    have hij : j ≤ i := by omega
    have h2 := hmono j i hj hi hij
    rw [hgi] at h2
    omega
  have hmemi : A[i] ∈ A.filter (fun a => a.group_number = g) := by
    refine List.mem_filter.mpr ⟨List.getElem_mem hi, ?_⟩
    simp [hgi]
  have hmemi1 : A[i + 1] ∈ A.filter (fun a => a.group_number = g + 1) := by
    refine List.mem_filter.mpr ⟨List.getElem_mem h1, ?_⟩
    simp [hstep]
  have hmax : listMaxI ((A.filter (fun a => a.group_number = g)).map (fun a => a.msg_time)) = t := by
    refine listMaxI_eq_of _ t ?_ ?_
    · exact List.mem_map.mpr ⟨A[i], hmemi, hti⟩
    · intro x hx
      rcases List.mem_map.mp hx with ⟨a, haf, hax⟩
      rcases List.mem_filter.mp haf with ⟨ha_anns, ha_g⟩
      have hag : a.group_number = g := by simpa using ha_g
      rcases List.mem_iff_getElem.mp ha_anns with ⟨p, hp, hpa⟩
      have hpi : p ≤ i := hle_i p hp (by rw [hpa]; exact hag)
      have hta := htimes p i hp hi hpi
      rw [hpa, hti] at hta
      rw [← hax]
      exact hta
  have hmin : listMinI ((A.filter (fun a => a.group_number = g + 1)).map
      (fun a => a.msg_time)) = t := by
    refine listMinI_eq_of _ t ?_ ?_
    · exact List.mem_map.mpr ⟨A[i + 1], hmemi1, hti1⟩
    · intro x hx
      rcases List.mem_map.mp hx with ⟨a, haf, hax⟩
      rcases List.mem_filter.mp haf with ⟨ha_anns, ha_g⟩
      have hag : a.group_number = g + 1 := by simpa using ha_g
      rcases List.mem_iff_getElem.mp ha_anns with ⟨p, hp, hpa⟩
      have hpi : i + 1 ≤ p := hge_i1 p hp (by rw [hpa]; exact hag)
      have hta := htimes (i + 1) p h1 hp hpi
      rw [hpa, hti1] at hta
      rw [← hax]
      exact hta
  have hgK : g ∈ groupKeys A :=
    (groupKeys_mem_iff A g).mpr (List.mem_map.mpr ⟨A[i], List.getElem_mem hi, hgi⟩)
  have hg1K : g + 1 ∈ groupKeys A :=
    (groupKeys_mem_iff A (g + 1)).mpr (List.mem_map.mpr ⟨A[i + 1], List.getElem_mem h1, hstep⟩)
  have hiv_g : mkInterval c g (A.filter (fun a => a.group_number = g))
      ∈ contractIntervals cfg.contract_gap_threshold c crs := by
    rw [hA]
    refine (mem_contractIntervals_iff cfg.contract_gap_threshold c crs _).mpr ⟨g, ?_, rfl⟩
    rw [← hA]
    exact hgK
  have hiv_g1 : mkInterval c (g + 1) (A.filter (fun a => a.group_number = g + 1))
      ∈ contractIntervals cfg.contract_gap_threshold c crs := by
    rw [hA]
    refine (mem_contractIntervals_iff cfg.contract_gap_threshold c crs _).mpr ⟨g + 1, ?_, rfl⟩
    rw [← hA]
    exact hg1K
  have hpart3 : ∀ iv ∈ contractIntervals cfg.contract_gap_threshold c crs,
      (iv.group = g → iv.msg_time_max = t) ∧ (iv.group = g + 1 → iv.msg_time_min = t) := by
    intro iv hiv
    rcases (mem_contractIntervals_iff cfg.contract_gap_threshold c crs iv).mp hiv
      with ⟨g0, hg0, hmk⟩
    constructor
    · intro hg
      have hg0g : g0 = g := by
        rw [← hmk] at hg
        exact hg
      subst hg0g
      rw [← hmk, ← hA]
      exact hmax
    · intro hg
      have hg0g : g0 = g + 1 := by
        rw [← hmk] at hg
        exact hg
      subst hg0g
      rw [← hmk, ← hA]
      exact hmin
  refine ⟨⟨_, hiv_g, rfl⟩, ⟨_, hiv_g1, rfl⟩, hpart3, ?_⟩
  intro fi hfi hor
  rcases List.mem_iff_get.mp hfi with ⟨⟨k, hk⟩, hkget⟩
  have hkS : k < (sortedIntervals cfg c crs).length := by
    rw [← flagContract_length cfg c crs]
    exact hk
  have hfieq : fi = mkFIv cfg ((sortedIntervals cfg c crs).map (fun iv => iv.load))
      ((overlapFlags (sortedIntervals cfg c crs)).get
        ⟨k, by rw [overlapFlags_length]; exact hkS⟩)
      ((noncontigScan cfg.load_gap_threshold none (sortedIntervals cfg c crs)).get
        ⟨k, by rw [noncontigScan_length]; exact hkS⟩)
      ((sortedIntervals cfg c crs).get ⟨k, hkS⟩) := by
    rw [← hkget]
    exact flagContract_get cfg c crs k hkS
  have haMem : (sortedIntervals cfg c crs).get ⟨k, hkS⟩
      ∈ contractIntervals cfg.contract_gap_threshold c crs :=
    (sortedIntervals_mem_iff cfg c crs _).mp (List.get_mem _ k hkS)
  have haGroup : ((sortedIntervals cfg c crs).get ⟨k, hkS⟩).group = fi.group := by
    rw [hfieq]
    rfl
  have haMinMax := contractIntervals_min_le_max cfg.contract_gap_threshold c crs _ haMem
  have hflag : fi.invalid_load_overlap
      = (overlapFlags (sortedIntervals cfg c crs)).get
          ⟨k, by rw [overlapFlags_length]; exact hkS⟩ := by
    rw [hfieq]
    rfl
  rcases hor with hcase | hcase
  · -- fi is the group-g row: its partner is the group-(g+1) interval
    have haMax : ((sortedIntervals cfg c crs).get ⟨k, hkS⟩).msg_time_max = t :=
      (hpart3 _ haMem).1 (haGroup.trans hcase)
    have hpMem : mkInterval c (g + 1) (A.filter (fun a => a.group_number = g + 1))
        ∈ sortedIntervals cfg c crs :=
      (sortedIntervals_mem_iff cfg c crs _).mpr hiv_g1
    rcases List.mem_iff_get.mp hpMem with ⟨⟨j, hj⟩, hjget⟩
    have hne : j ≠ k := by
      intro hjk
      subst hjk
      have hgj : ((sortedIntervals cfg c crs).get ⟨j, hj⟩).group = g + 1 := by
        rw [hjget]
        rfl
      have hgk : ((sortedIntervals cfg c crs).get ⟨j, hj⟩).group = g := by
        have : ((sortedIntervals cfg c crs).get ⟨j, hj⟩)
            = ((sortedIntervals cfg c crs).get ⟨j, hkS⟩) := rfl
        rw [this]
        exact haGroup.trans hcase
      omega
    have hpMin : (mkInterval c (g + 1)
        (A.filter (fun a => a.group_number = g + 1))).msg_time_min = t := by
      show listMinI _ = t
      exact hmin
    have hpMinMax := contractIntervals_min_le_max cfg.contract_gap_threshold c crs _ hiv_g1
    have hov : ivOverlaps ((sortedIntervals cfg c crs).get ⟨k, hkS⟩)
        ((sortedIntervals cfg c crs).get ⟨j, hj⟩) = true := by
      rw [hjget]
      unfold ivOverlaps
      refine Bool.and_eq_true_iff.mpr ⟨decide_eq_true ?_, decide_eq_true ?_⟩
      · rw [haMax] at haMinMax
        rw [hpMin] at hpMinMax
        omega
      · rw [hpMin, haMax]
    rw [hflag]
    exact overlapFlags_get_one (sortedIntervals cfg c crs) k hkS j hj hne hov
  · -- fi is the group-(g+1) row: its partner is the group-g interval
    have haMin : ((sortedIntervals cfg c crs).get ⟨k, hkS⟩).msg_time_min = t :=
      (hpart3 _ haMem).2 (haGroup.trans hcase)
    have hpMem : mkInterval c g (A.filter (fun a => a.group_number = g))
        ∈ sortedIntervals cfg c crs :=
      (sortedIntervals_mem_iff cfg c crs _).mpr hiv_g
    rcases List.mem_iff_get.mp hpMem with ⟨⟨j, hj⟩, hjget⟩
    have hne : j ≠ k := by
      intro hjk
      subst hjk
      have hgj : ((sortedIntervals cfg c crs).get ⟨j, hj⟩).group = g := by
        rw [hjget]
        rfl
      have hgk : ((sortedIntervals cfg c crs).get ⟨j, hj⟩).group = g + 1 := by
        have : ((sortedIntervals cfg c crs).get ⟨j, hj⟩)
            = ((sortedIntervals cfg c crs).get ⟨j, hkS⟩) := rfl
        rw [this]
        exact haGroup.trans hcase
      omega
    have hpMax : (mkInterval c g
        (A.filter (fun a => a.group_number = g))).msg_time_max = t := by
      show listMaxI _ = t
      exact hmax
    have hpMinMax := contractIntervals_min_le_max cfg.contract_gap_threshold c crs _ hiv_g
    have hov : ivOverlaps ((sortedIntervals cfg c crs).get ⟨k, hkS⟩)
        ((sortedIntervals cfg c crs).get ⟨j, hj⟩) = true := by
      rw [hjget]
      unfold ivOverlaps
      refine Bool.and_eq_true_iff.mpr ⟨decide_eq_true ?_, decide_eq_true ?_⟩
      · rw [haMin, hpMax]
      · rw [haMin] at haMinMax
        rw [hpMax] at hpMinMax
        omega
    rw [hflag]
    exact overlapFlags_get_one (sortedIntervals cfg c crs) k hkS j hj hne hov

lemma len0C10 : 0 < (flagContract cfgC10 1 crsC10).length := by decide

lemma len1C10 : 1 < (flagContract cfgC10 1 crsC10).length := by decide

/-- Witness for C10 at a concrete input: in `crsC10` the label changes at
a tied timestamp, and both resulting interval rows carry
`invalid_load_overlap = 1`. -/
theorem C10_tie_overlap_witness :
    sortedByTime crsC10 = true
  ∧ ((flagContract cfgC10 1 crsC10).get ⟨0, len0C10⟩).group = 1
  ∧ ((flagContract cfgC10 1 crsC10).get ⟨0, len0C10⟩).invalid_load_overlap = 1
  ∧ ((flagContract cfgC10 1 crsC10).get ⟨1, len1C10⟩).group = 2
  ∧ ((flagContract cfgC10 1 crsC10).get ⟨1, len1C10⟩).invalid_load_overlap = 1 := by
  have h := C10_tie_overlap cfgC10 1 crsC10 1 1 5 (by decide) (by decide) (by decide)
    (by decide) (by decide) (by decide)
  have hg0 : ((flagContract cfgC10 1 crsC10).get ⟨0, len0C10⟩).group = 1 := by decide
  have hg1 : ((flagContract cfgC10 1 crsC10).get ⟨1, len1C10⟩).group = 2 := by decide
  refine ⟨by decide, hg0, ?_, hg1, ?_⟩
  · exact h.2.2.2 _ (List.get_mem _ 0 len0C10) (Or.inl hg0)
  · exact h.2.2.2 _ (List.get_mem _ 1 len1C10) (Or.inr hg1)
